import Mathlib

/-!
A verification development for `src/prime_resonance_field.py`.

The program computes, from one integer bound `n` (2350 in the driver):
a trial-division prime sieve over `range(2, n)`, a per-prime "dimension"
tag from divisibility by 13 and 5, real-valued spiral coordinates
`(x, y, z)` and a "tone" frequency scaled by powers of the golden ratio,
and the list of adjacent twin-prime pairs.

Integer quantities are embedded as `Int` (Python integers are
arbitrary-precision and signed); the floating-point formulas of the
projection and tone steps are embedded over `ℝ`, so the theorems about
them state the exact real-arithmetic behaviour of the formulas.
-/

namespace PrimeResonanceField

/-- Python `range(a, b)` over integers: the list `[a, a+1, ..., b-1]`,
empty when `b ≤ a`. -/
def pyRange (a b : Int) : List Int :=
  (List.range (b - a).toNat).map (fun (i : Nat) => a + (i : Int))

/-- Integer square root, structurally recursive.  This is the value of
Python's `int(p**0.5)` for the candidate sizes the program sieves. -/
def isqrt : Nat → Nat
  | 0 => 0
  | m + 1 => if (isqrt m + 1) * (isqrt m + 1) ≤ m + 1 then isqrt m + 1 else isqrt m

/-- The per-candidate trial-division test of line 35:
`all(p % d != 0 for d in range(2, int(p**0.5)+1))`. -/
def isPrimeTrial (p : Int) : Bool :=
  (pyRange 2 ((isqrt p.toNat : Int) + 1)).all (fun d => p % d != 0)

/-- The prime sieve of line 35:
`[p for p in range(2, n) if all(p % d != 0 for d in range(2, int(p**0.5)+1))]`. -/
def sieve (n : Int) : List Int :=
  (pyRange 2 n).filter isPrimeTrial

/-- The dimensional-tagging rule of lines 38-46: `5` when `p % 13 == 0`,
else `3` when `p % 5 == 0`, else `2`. -/
def dimension (p : Int) : Int :=
  if p % 13 = 0 then 5 else if p % 5 = 0 then 3 else 2

/-- Line 46 builds the list of tags for the sieved primes in order. -/
def dimensions (n : Int) : List Int :=
  (sieve n).map dimension

/-- The default bound of `generate_resonance_spiral` and the literal bound
repeated in the `__main__` driver (lines 33 and 75). -/
def defaultBound : Int := 2350

/-- The driver's independently regenerated prime list (line 75):
`[p for p in range(2, 2350) if all(p % d != 0 for d in range(2, int(p**0.5)+1))]`. -/
def mainPrimes : List Int :=
  (pyRange 2 2350).filter isPrimeTrial

/-- `tag_entanglement` (lines 61-67): scan adjacent elements and collect
each pair whose difference is exactly 2. -/
def tag_entanglement : List Int → List (Int × Int)
  | p1 :: p2 :: rest =>
      (if p2 - p1 = 2 then [(p1, p2)] else []) ++ tag_entanglement (p2 :: rest)
  | _ => []

/-- The driver's twin list (line 75). -/
def mainTwins : List (Int × Int) :=
  tag_entanglement mainPrimes

/-- `PHI = (1 + np.sqrt(5)) / 2` (line 27). -/
noncomputable def PHI : ℝ := (1 + Real.sqrt 5) / 2

/-- `IAM_FREQ = 528.0` (line 28). -/
noncomputable def IAM_FREQ : ℝ := 528.0

/-- `theta = p * np.pi / 13`, elementwise (line 49). -/
noncomputable def theta (p : ℝ) : ℝ := p * Real.pi / 13

/-- `r = np.sqrt(p)`, elementwise (line 50). -/
noncomputable def rGrowth (p : ℝ) : ℝ := Real.sqrt p

/-- `x = r * np.cos(theta)`, elementwise (line 51). -/
noncomputable def xCoord (p : ℝ) : ℝ := rGrowth p * Real.cos (theta p)

/-- `y = r * np.sin(theta)`, elementwise (line 52). -/
noncomputable def yCoord (p : ℝ) : ℝ := rGrowth p * Real.sin (theta p)

/-- `z = p * np.sin(theta / PHI**d)`, elementwise (line 53). -/
noncomputable def zCoord (p : ℝ) (d : Int) : ℝ := p * Real.sin (theta p / PHI ^ d)

/-- `tone = IAM_FREQ * p / PHI**d`, elementwise (line 56). -/
noncomputable def tone (p : ℝ) (d : Int) : ℝ := IAM_FREQ * p / PHI ^ d

/-- The `x` array of `generate_resonance_spiral n` (lines 49-51 vectorised
over the sieved primes). -/
noncomputable def spiralX (n : Int) : List ℝ :=
  (sieve n).map (fun (p : Int) => xCoord (p : ℝ))

/-- The `y` array of `generate_resonance_spiral n`. -/
noncomputable def spiralY (n : Int) : List ℝ :=
  (sieve n).map (fun (p : Int) => yCoord (p : ℝ))

/-- The `z` array of `generate_resonance_spiral n`: the elementwise
(numpy-broadcast) combination of the prime array with the tag array. -/
noncomputable def spiralZ (n : Int) : List ℝ :=
  List.zipWith (fun (p d : Int) => zCoord (p : ℝ) d) (sieve n) (dimensions n)

/-- The `tones` array of `generate_resonance_spiral n` (line 56). -/
noncomputable def tones (n : Int) : List ℝ :=
  List.zipWith (fun (p d : Int) => tone (p : ℝ) d) (sieve n) (dimensions n)

/-- The full return value of `generate_resonance_spiral` (line 58):
`x, y, z, tones, dimensions`. -/
noncomputable def generate_resonance_spiral (n : Int) :
    List ℝ × List ℝ × List ℝ × List ℝ × List Int :=
  (spiralX n, spiralY n, spiralZ n, tones n, dimensions n)

/-- The whole numeric pipeline of the driver for a bound `n`: the spiral
data together with the twin-pair list. -/
noncomputable def runPipeline (n : Int) :
    (List ℝ × List ℝ × List ℝ × List ℝ × List Int) × List (Int × Int) :=
  (generate_resonance_spiral n, tag_entanglement (sieve n))

/-- Modelled from the spec (section 4.3): the SpiralProjector contract,
written out exactly as the spec's formula, to be compared with the
source's projection. -/
noncomputable def SpiralProjector (p : ℝ) (d : Int) : ℝ × ℝ × ℝ :=
  (Real.sqrt p * Real.cos (p * Real.pi / 13),
   Real.sqrt p * Real.sin (p * Real.pi / 13),
   p * Real.sin ((p * Real.pi / 13) / ((1 + Real.sqrt 5) / 2) ^ d))

/-- Modelled from the spec (section 4.5): the pairs `(l[i], l[i+1])` for
`i` in `[0, len-2]` whose difference is exactly 2, in order of `i`. -/
def specTwinPairs (l : List Int) : List (Int × Int) :=
  ((List.range (l.length - 1)).map (fun i => (l.getD i 0, l.getD (i + 1) 0))).filter
    (fun q => q.2 - q.1 == 2)

/-- The primes below `n`, enumerated independently of the program's sieve:
the natural numbers `< n` that are prime in Mathlib's sense. -/
def natPrimes (N : Nat) : List Nat :=
  (List.range N).filter (fun k => decide (Nat.Prime k))

/-- The number of primes below an integer bound `n`. -/
def primeCount (n : Int) : Nat :=
  (natPrimes n.toNat).length

/-! ### Helper lemmas about the sieve -/

theorem mem_pyRange {a b x : Int} : x ∈ pyRange a b ↔ a ≤ x ∧ x < b := by
  unfold pyRange
  rw [List.mem_map]
  constructor
  · rintro ⟨i, hi, rfl⟩
    rw [List.mem_range] at hi
    omega
  · rintro ⟨h1, h2⟩
    refine ⟨(x - a).toNat, ?_, ?_⟩
    · rw [List.mem_range]
      omega
    · omega

theorem pyRange_sorted (a b : Int) : List.Pairwise (· < ·) (pyRange a b) :=
  List.Pairwise.map _ (fun i j hij => by omega) (List.pairwise_lt_range _)

theorem isqrt_eq (m : Nat) : isqrt m = Nat.sqrt m := by
  induction m with
  | zero => decide
  | succ m ih =>
    have h1 : isqrt m * isqrt m ≤ m := ih ▸ Nat.sqrt_le m
    have h2 : m < (isqrt m + 1) * (isqrt m + 1) := ih ▸ Nat.lt_succ_sqrt m
    rw [isqrt]
    split
    · refine Nat.eq_sqrt.mpr ⟨by assumption, by nlinarith⟩
    · refine Nat.eq_sqrt.mpr ⟨by nlinarith, by nlinarith⟩

theorem isPrimeTrial_iff {p : Int} (hp : 2 ≤ p) : isPrimeTrial p = true ↔ Prime p := by
  have habs : p.natAbs = p.toNat := by omega
  rw [Int.prime_iff_natAbs_prime, habs, Nat.prime_def_le_sqrt]
  simp only [isPrimeTrial, isqrt_eq, List.all_eq_true, bne_iff_ne, ne_eq]
  constructor
  · intro h
    refine ⟨by omega, fun k h2 hsq hdvd => ?_⟩
    have hk : (k : Int) ∈ pyRange 2 ((Nat.sqrt p.toNat : Int) + 1) := by
      rw [mem_pyRange]
      omega
    refine h _ hk ?_
    have hdvd' : (k : Int) ∣ p := by
      have hc : (k : Int) ∣ (p.toNat : Int) := Int.natCast_dvd_natCast.mpr hdvd
      rwa [Int.toNat_of_nonneg (by omega)] at hc
    exact Int.emod_eq_zero_of_dvd hdvd'
  · rintro ⟨-, h⟩ d hd hmod
    rw [mem_pyRange] at hd
    have hdvd : d ∣ p := Int.dvd_of_emod_eq_zero hmod
    have hdvd' : d.toNat ∣ p.toNat := by
      have hc : (d.toNat : Int) ∣ (p.toNat : Int) := by
        rwa [Int.toNat_of_nonneg (by omega), Int.toNat_of_nonneg (by omega)]
      exact_mod_cast hc
    exact h d.toNat (by omega) (by omega) hdvd'

theorem mem_sieve {n p : Int} : p ∈ sieve n ↔ 2 ≤ p ∧ p < n ∧ Prime p := by
  simp only [sieve, List.mem_filter, mem_pyRange]
  constructor
  · rintro ⟨⟨h2, hn⟩, ht⟩
    exact ⟨h2, hn, (isPrimeTrial_iff h2).mp ht⟩
  · rintro ⟨h2, hn, hpr⟩
    exact ⟨⟨h2, hn⟩, (isPrimeTrial_iff h2).mpr hpr⟩

theorem sieve_sorted (n : Int) : List.Sorted (· < ·) (sieve n) :=
  List.Pairwise.filter _ (pyRange_sorted 2 n)

theorem sieve_nodup (n : Int) : (sieve n).Nodup :=
  (sieve_sorted n).nodup

theorem sieve_eq_nil {n : Int} (h : n ≤ 2) : sieve n = [] := by
  have h0 : (n - 2).toNat = 0 := by omega
  simp [sieve, pyRange, h0]

theorem sieve_ten : sieve 10 = [2, 3, 5, 7] := by decide

/-- C1: the sieve returns the ordered sequence of all primes `p` with
`2 ≤ p < n`: strictly increasing, duplicate-free, containing exactly the
primes below `n`; `sieve 10 = [2,3,5,7]`, and every bound `n ≤ 2` yields
the empty sequence. -/
theorem C1_sieve_correct (n : Int) :
    List.Sorted (· < ·) (sieve n) ∧
    (sieve n).Nodup ∧
    (∀ p : Int, p ∈ sieve n ↔ 2 ≤ p ∧ p < n ∧ Prime p) ∧
    sieve 10 = [2, 3, 5, 7] ∧
    (n ≤ 2 → sieve n = []) :=
  ⟨sieve_sorted n, sieve_nodup n, fun _ => mem_sieve, sieve_ten, fun h => sieve_eq_nil h⟩

/-- Witness for C1 at the concrete bounds 0 and 10. -/
theorem C1_sieve_correct_witness :
    (0 : Int) ≤ 2 ∧ sieve 0 = [] ∧ sieve 10 = [2, 3, 5, 7] :=
  ⟨by decide, (C1_sieve_correct 0).2.2.2.2 (by decide), (C1_sieve_correct 10).2.2.2.1⟩

/-- C2: the dimension classifier is the precedence-ordered rule
"13 | p gives 5, else 5 | p gives 3, else 2"; it is total over all
integers, always lands in {2,3,5}, and takes the stated concrete
values at 13, 5, 7 and 2. -/
theorem C2_dimension_correct :
    (∀ p : Int, dimension p = if p % 13 = 0 then 5 else if p % 5 = 0 then 3 else 2) ∧
    (∀ p : Int, dimension p = 2 ∨ dimension p = 3 ∨ dimension p = 5) ∧
    (∀ p : Int, p % 13 = 0 → dimension p = 5) ∧
    (∀ p : Int, p % 13 ≠ 0 → p % 5 = 0 → dimension p = 3) ∧
    (∀ p : Int, p % 13 ≠ 0 → p % 5 ≠ 0 → dimension p = 2) ∧
    dimension 13 = 5 ∧ dimension 5 = 3 ∧ dimension 7 = 2 ∧ dimension 2 = 2 := by
  refine ⟨fun p => rfl, ?_, ?_, ?_, ?_, by decide, by decide, by decide, by decide⟩
  · intro p
    unfold dimension
    split_ifs <;> norm_num
  · intro p h
    unfold dimension
    rw [if_pos h]
  · intro p h13 h5
    unfold dimension
    rw [if_neg h13, if_pos h5]
  · intro p h13 h5
    unfold dimension
    rw [if_neg h13, if_neg h5]

/-- Witness for C2 at concrete inputs taking each branch. -/
theorem C2_dimension_correct_witness :
    (26 : Int) % 13 = 0 ∧ (10 : Int) % 13 ≠ 0 ∧ (10 : Int) % 5 = 0 ∧
    (7 : Int) % 13 ≠ 0 ∧ (7 : Int) % 5 ≠ 0 ∧
    dimension 26 = 5 ∧ dimension 10 = 3 ∧ dimension 7 = 2 :=
  ⟨by decide, by decide, by decide, by decide, by decide,
   C2_dimension_correct.2.2.1 26 (by decide),
   C2_dimension_correct.2.2.2.1 10 (by decide) (by decide),
   C2_dimension_correct.2.2.2.2.1 7 (by decide) (by decide)⟩

/-- C3: the projection of a prime `p` with tag `d` is exactly the spec's
formula: `theta = p·π/13`, `r = √p`, `x = r·cos θ`, `y = r·sin θ`,
`z = p·sin(θ / φ^d)` with `φ = (1+√5)/2`; as a total function on `ℝ` it
raises no domain error at any input. -/
theorem C3_projection_formula (p : ℝ) (d : Int) :
    (xCoord p, yCoord p, zCoord p d) = SpiralProjector p d ∧
    xCoord p = Real.sqrt p * Real.cos (p * Real.pi / 13) ∧
    yCoord p = Real.sqrt p * Real.sin (p * Real.pi / 13) ∧
    zCoord p d = p * Real.sin ((p * Real.pi / 13) / ((1 + Real.sqrt 5) / 2) ^ d) ∧
    PHI = (1 + Real.sqrt 5) / 2 :=
  ⟨rfl, rfl, rfl, rfl, rfl⟩

theorem PHI_pos : (0 : ℝ) < PHI := by
  have h5 : (0 : ℝ) ≤ Real.sqrt 5 := Real.sqrt_nonneg 5
  unfold PHI
  linarith

/-- C4: the derived tone is `528.0 · p / φ^d`, and for a fixed dimension
tag it is strictly increasing in the prime value. -/
theorem C4_tone_formula_mono :
    (∀ (p : ℝ) (d : Int), tone p d = 528.0 * p / ((1 + Real.sqrt 5) / 2) ^ d) ∧
    (∀ (p1 p2 : ℝ) (d : Int), p1 < p2 → tone p1 d < tone p2 d) := by
  refine ⟨fun p d => rfl, fun p1 p2 d h => ?_⟩
  have hpow : (0 : ℝ) < PHI ^ d := zpow_pos PHI_pos d
  unfold tone IAM_FREQ
  rw [div_lt_div_iff_of_pos_right hpow]
  norm_num
  linarith

/-- Witness for C4 at the primes 3 and 5 in dimension 2. -/
theorem C4_tone_formula_mono_witness : (3 : ℝ) < 5 ∧ tone 3 2 < tone 5 2 :=
  ⟨by norm_num, C4_tone_formula_mono.2 3 5 2 (by norm_num)⟩

/-! ### Helper lemmas about twin-pair detection -/

theorem tag_entanglement_eq_zip :
    ∀ l : List Int, tag_entanglement l = (l.zip l.tail).filter (fun q => q.2 - q.1 == 2)
  | [] => rfl
  | [_] => rfl
  | a :: b :: t => by
    rw [tag_entanglement, tag_entanglement_eq_zip (b :: t)]
    simp only [List.tail_cons, List.zip_cons_cons, List.filter_cons]
    by_cases h : b - a = 2
    · simp [h]
    · simp [h]

theorem zip_tail_eq_map_range :
    ∀ l : List Int, l.zip l.tail =
      (List.range (l.length - 1)).map (fun i => (l.getD i 0, l.getD (i + 1) 0))
  | [] => rfl
  | [_] => rfl
  | a :: b :: t => by
    have ih := zip_tail_eq_map_range (b :: t)
    simp only [List.tail_cons, List.zip_cons_cons] at ih ⊢
    rw [ih]
    simp only [List.length_cons, Nat.add_sub_cancel, List.range_succ_eq_map, List.map_cons,
      List.map_map]
    simp [Function.comp_def, List.getD_cons_succ, List.getD_cons_zero]

theorem tag_entanglement_eq_spec (l : List Int) : tag_entanglement l = specTwinPairs l := by
  rw [tag_entanglement_eq_zip, specTwinPairs, zip_tail_eq_map_range]

/-- C5: `tag_entanglement` returns exactly the adjacent pairs
`(l[i], l[i+1])` with difference 2, in input order; on
`[3,5,7,11,13]` it yields `[(3,5),(5,7),(11,13)]` and on `[]` it
yields `[]`. -/
theorem C5_twin_pairs (l : List Int) :
    tag_entanglement l = specTwinPairs l ∧
    tag_entanglement [3, 5, 7, 11, 13] = [(3, 5), (5, 7), (11, 13)] ∧
    tag_entanglement ([] : List Int) = [] :=
  ⟨tag_entanglement_eq_spec l, by decide, rfl⟩

theorem generate_resonance_spiral_dims (n : Int) :
    (generate_resonance_spiral n).2.2.2.2 = dimensions n := rfl

/-- C6: the prime sequence the driver regenerates with the literal bound
2350 is element-for-element the sequence generated inside
`generate_resonance_spiral` at its default bound, so the twin-pair list
computed from it equals the one computed from the single sequence that
also feeds the per-prime records. -/
theorem C6_main_resieve_agrees :
    mainPrimes = sieve defaultBound ∧
    tag_entanglement mainPrimes = tag_entanglement (sieve defaultBound) ∧
    mainTwins = tag_entanglement (sieve defaultBound) ∧
    (generate_resonance_spiral defaultBound).2.2.2.2 = mainPrimes.map dimension := by
  have h : mainPrimes = sieve defaultBound := by
    unfold mainPrimes sieve defaultBound
    rfl
  refine ⟨h, by rw [h], ?_, ?_⟩
  · unfold mainTwins
    rw [h]
  · rw [generate_resonance_spiral_dims]
    unfold dimensions
    rw [h]

/-- C7 counterexample: at the bound 0 — which is not a positive integer
`≥ 2` — the pipeline does not fail at all: every stage returns an
ordinary (empty) value, so no `InvalidBound` error is ever raised. -/
theorem C7_invalid_bound_counterexample :
    sieve 0 = [] ∧ spiralX 0 = [] ∧ spiralY 0 = [] ∧ spiralZ 0 = [] ∧ tones 0 = [] ∧
    dimensions 0 = [] ∧ tag_entanglement (sieve 0) = [] := by
  have hs : sieve 0 = [] := sieve_eq_nil (by norm_num)
  refine ⟨hs, ?_, ?_, ?_, ?_, ?_, ?_⟩ <;>
    simp [spiralX, spiralY, spiralZ, tones, dimensions, hs, tag_entanglement]

/-- C7 amended: the code performs no bound validation; for every integer
bound `n ≤ 2` (including every invalid bound, such as 0 and negative
values) the pipeline completes without error and every stage returns the
empty sequence. -/
theorem C7_small_bound_no_error (n : Int) (h : n ≤ 2) :
    sieve n = [] ∧ spiralX n = [] ∧ spiralY n = [] ∧ spiralZ n = [] ∧ tones n = [] ∧
    dimensions n = [] ∧ tag_entanglement (sieve n) = [] ∧
    runPipeline n = (([], [], [], [], []), []) := by
  have hs : sieve n = [] := sieve_eq_nil h
  refine ⟨hs, ?_, ?_, ?_, ?_, ?_, ?_, ?_⟩ <;>
    simp [runPipeline, generate_resonance_spiral, spiralX, spiralY, spiralZ, tones,
      dimensions, hs, tag_entanglement]

/-- Witness for the amended C7 at the concrete bound -3. -/
theorem C7_small_bound_no_error_witness :
    (-3 : Int) ≤ 2 ∧ sieve (-3) = [] :=
  ⟨by decide, (C7_small_bound_no_error (-3) (by decide)).1⟩

/-- C8: the pipeline is deterministic — running it twice on the same
bound gives identical spiral data and identical twin lists (the model is
a pure function of the bound; no timestamp or other ambient state enters
any computed value). -/
theorem C8_deterministic (n : Int) (l : List Int) :
    runPipeline n = runPipeline n ∧
    generate_resonance_spiral n = generate_resonance_spiral n ∧
    (spiralX n, spiralY n, spiralZ n, tones n, dimensions n) =
      (spiralX n, spiralY n, spiralZ n, tones n, dimensions n) ∧
    tag_entanglement l = tag_entanglement l :=
  ⟨rfl, rfl, rfl, rfl⟩

/-! ### Helper lemmas for index alignment -/

theorem zipWith_map_self {α β γ : Type*} (f : α → β → γ) (g : α → β) :
    ∀ l : List α, List.zipWith f l (l.map g) = l.map (fun a => f a (g a))
  | [] => rfl
  | a :: t => by
    simp only [List.map_cons, List.zipWith_cons_cons]
    rw [zipWith_map_self f g t]

theorem spiralZ_eq_map (n : Int) :
    spiralZ n = (sieve n).map (fun (p : Int) => zCoord (p : ℝ) (dimension p)) := by
  unfold spiralZ dimensions
  exact zipWith_map_self _ _ _

theorem tones_eq_map (n : Int) :
    tones n = (sieve n).map (fun (p : Int) => tone (p : ℝ) (dimension p)) := by
  unfold tones dimensions
  exact zipWith_map_self _ _ _

theorem getD_map {α β : Type*} (f : α → β) (l : List α) (i : Nat) (d : α) (e : β)
    (h : i < l.length) : (l.map f).getD i e = f (l.getD i d) := by
  rw [List.getD_eq_getElem _ _ (by simpa using h), List.getD_eq_getElem _ _ h,
    List.getElem_map]

theorem natPrimes_sorted (N : Nat) : List.Pairwise (· < ·) (natPrimes N) :=
  List.Pairwise.filter _ (List.pairwise_lt_range N)

theorem natPrimes_map_sorted (N : Nat) :
    List.Pairwise (· < ·) ((natPrimes N).map (fun (k : Nat) => (k : Int))) :=
  List.Pairwise.map _ (fun i j hij => by exact_mod_cast hij) (natPrimes_sorted N)

theorem mem_natPrimes {N k : Nat} : k ∈ natPrimes N ↔ k < N ∧ Nat.Prime k := by
  simp [natPrimes, List.mem_filter, List.mem_range]

theorem sieve_eq_natPrimes_map (n : Int) :
    sieve n = (natPrimes n.toNat).map (fun (k : Nat) => (k : Int)) := by
  apply List.eq_of_perm_of_sorted ?_ (sieve_sorted n) (natPrimes_map_sorted n.toNat)
  rw [List.perm_ext_iff_of_nodup (sieve_nodup n) (natPrimes_map_sorted n.toNat).nodup]
  intro a
  rw [mem_sieve, List.mem_map]
  constructor
  · rintro ⟨h2, hn, hpr⟩
    refine ⟨a.toNat, ?_, by omega⟩
    rw [mem_natPrimes]
    refine ⟨by omega, ?_⟩
    have hna := Int.prime_iff_natAbs_prime.mp hpr
    rwa [(by omega : a.natAbs = a.toNat)] at hna
  · rintro ⟨k, hk, rfl⟩
    rw [mem_natPrimes] at hk
    obtain ⟨hkN, hkpr⟩ := hk
    have h2 := hkpr.two_le
    refine ⟨by omega, by omega, ?_⟩
    rw [Int.prime_iff_natAbs_prime]
    simpa using hkpr

theorem sieve_length_eq (n : Int) : (sieve n).length = primeCount n := by
  rw [sieve_eq_natPrimes_map, List.length_map]
  rfl

/-- C9: the five results of `generate_resonance_spiral` all have the
length of the sieved prime list — the number of primes below `n` — and
the `i`-th entry of each is the corresponding function of the `i`-th
prime and its dimension tag alone, so the per-prime records stay
index-aligned with the sieve output. -/
theorem C9_alignment (n : Int) :
    (spiralX n).length = (sieve n).length ∧
    (spiralY n).length = (sieve n).length ∧
    (spiralZ n).length = (sieve n).length ∧
    (tones n).length = (sieve n).length ∧
    (dimensions n).length = (sieve n).length ∧
    (sieve n).length = primeCount n ∧
    (∀ i : Nat, i < (sieve n).length →
      (spiralX n).getD i 0 = xCoord ((sieve n).getD i 0 : ℝ) ∧
      (spiralY n).getD i 0 = yCoord ((sieve n).getD i 0 : ℝ) ∧
      (spiralZ n).getD i 0 = zCoord ((sieve n).getD i 0 : ℝ) (dimension ((sieve n).getD i 0)) ∧
      (tones n).getD i 0 = tone ((sieve n).getD i 0 : ℝ) (dimension ((sieve n).getD i 0)) ∧
      (dimensions n).getD i 0 = dimension ((sieve n).getD i 0)) := by
  refine ⟨by simp [spiralX], by simp [spiralY], ?_, ?_, by simp [dimensions],
    sieve_length_eq n, ?_⟩
  · rw [spiralZ_eq_map]
    simp
  · rw [tones_eq_map]
    simp
  · intro i hi
    refine ⟨getD_map _ _ _ 0 0 hi, getD_map _ _ _ 0 0 hi, ?_, ?_, getD_map _ _ _ 0 0 hi⟩
    · rw [spiralZ_eq_map]
      exact getD_map _ _ _ 0 0 hi
    · rw [tones_eq_map]
      exact getD_map _ _ _ 0 0 hi

/-- Witness for C9 at bound 10, index 0. -/
theorem C9_alignment_witness :
    0 < (sieve 10).length ∧
    (dimensions 10).getD 0 0 = dimension ((sieve 10).getD 0 0) :=
  ⟨by decide, ((C9_alignment 10).2.2.2.2.2.2 0 (by decide)).2.2.2.2⟩

/-- C10: each projected point lies at distance `√p` from the `z`-axis:
in exact real arithmetic `x_i² + y_i² = p_i` for every sieved prime,
independently of the dimension tag. -/
theorem C10_radius_sq (n : Int) (i : Nat) (h : i < (sieve n).length) :
    (spiralX n).getD i 0 ^ 2 + (spiralY n).getD i 0 ^ 2 = ((sieve n).getD i 0 : ℝ) := by
  have hx : (spiralX n).getD i 0 = xCoord (((sieve n).getD i 0 : Int) : ℝ) :=
    getD_map _ _ _ 0 0 h
  have hy : (spiralY n).getD i 0 = yCoord (((sieve n).getD i 0 : Int) : ℝ) :=
    getD_map _ _ _ 0 0 h
  have hmem : (sieve n).getD i 0 ∈ sieve n := by
    rw [List.getD_eq_getElem _ _ h]
    exact List.getElem_mem h
  have hp2 : 2 ≤ (sieve n).getD i 0 := (mem_sieve.mp hmem).1
  have hp0 : (0 : ℝ) ≤ (((sieve n).getD i 0 : Int) : ℝ) := by
    have hz : (0 : Int) ≤ (sieve n).getD i 0 := by omega
    exact_mod_cast hz
  have key : ∀ q : ℝ, 0 ≤ q →
      (Real.sqrt q * Real.cos (theta q)) ^ 2 + (Real.sqrt q * Real.sin (theta q)) ^ 2 = q := by
    intro q hq
    have h1 := Real.sin_sq_add_cos_sq (theta q)
    have h2 := Real.sq_sqrt hq
    calc (Real.sqrt q * Real.cos (theta q)) ^ 2 + (Real.sqrt q * Real.sin (theta q)) ^ 2
        = Real.sqrt q ^ 2 * (Real.sin (theta q) ^ 2 + Real.cos (theta q) ^ 2) := by ring
      _ = q := by rw [h1, h2, mul_one]
  rw [hx, hy]
  exact key _ hp0

/-- Witness for C10 at bound 10, index 0. -/
theorem C10_radius_sq_witness :
    0 < (sieve 10).length ∧
    (spiralX 10).getD 0 0 ^ 2 + (spiralY 10).getD 0 0 ^ 2 = ((sieve 10).getD 0 0 : ℝ) :=
  ⟨by decide, C10_radius_sq 10 0 (by decide)⟩

end PrimeResonanceField
